import Mathlib

/-!
Verification of the my_vpn control plane against its specification.

The Go sources are embedded shallowly:

* `Pool` models `internal/network/ippool.go` (`IPPool` and its operations).
  IPv4 addresses are represented by their 32-bit numeric value (`Nat`);
  the Go code stores their dotted-quad strings, and the string form of a
  valid IPv4 address is in bijection with its numeric value, so nothing is
  lost.  The Go `map[string]bool` allocation map is a `Finset Nat`
  (a key is present iff it maps to `true`; the code never stores `false`).
  `incrementIP` is addition (no octet overflow occurs inside a pool whose
  base is mask-aligned, as produced by `net.ParseCIDR`).
-/

namespace Pool

/-- Mirrors the Go `IPPool` struct (`internal/network/ippool.go`).
The redundant fields (`serverIP`, `networkAddress`, `broadcastAddress`,
`totalHosts`) are stored exactly as the Go struct stores them. -/
structure IPPool where
  base : Nat
  prefixLen : Nat
  serverIP : Nat
  allocated : Finset Nat
  networkAddress : Nat
  broadcastAddress : Nat
  totalHosts : Nat
deriving DecidableEq

/-- `NewIPPool`: the CIDR input is given already parsed as the raw address
value `ip` and the mask length `ones` (Go: `net.ParseCIDR`; the parse-failure
and IPv6 branches return errors without constructing a pool and are outside
this model).  Matches the construction in the source: rejects networks
smaller than /29, masks the address, computes broadcast and server
addresses, and pre-marks only the server IP as allocated. -/
def NewIPPool (ip ones : Nat) : Except String IPPool :=
  let h := 32 - ones
  if h < 3 then
    .error "network too small, need at least /29"
  else
    let base := ip / 2 ^ h * 2 ^ h
    let broadcast := base + 2 ^ h - 1
    let server := base + 1
    .ok { base := base
          prefixLen := ones
          serverIP := server
          allocated := {server}
          networkAddress := base
          broadcastAddress := broadcast
          totalHosts := 2 ^ h - 2 }

/-- Go `p.ipNet.Contains(parsedIP)`: for a mask-aligned base this is
exactly membership in `[base, broadcast]`. -/
def Contains (p : IPPool) (ip : Nat) : Bool :=
  decide (p.base ≤ ip ∧ ip ≤ p.broadcastAddress)

/-- `AllocateIP`: sequential scan from `network+2` up to (and excluding) the
broadcast address, returning the first address not in the allocated set.
The Go `for !currentIP.Equal(broadcastIP)` loop visits exactly the
addresses `base+2, …, broadcast-1` in order. -/
def AllocateIP (p : IPPool) : Except String (Nat × IPPool) :=
  match (List.range' (p.base + 2) (p.broadcastAddress - (p.base + 2))).find?
      (fun ip => !decide (ip ∈ p.allocated)) with
  | some ip => .ok (ip, { p with allocated := insert ip p.allocated })
  | none => .error "no available IP addresses in pool"

/-- `AllocateSpecificIP` with the same check order as the source
(range, network, broadcast, server, already-allocated).  The
malformed-address branch (`net.ParseIP` failure) is outside the numeric
model; it returns an error without touching the state. -/
def AllocateSpecificIP (p : IPPool) (ip : Nat) : Except String IPPool :=
  if ¬ Contains p ip then .error "IP address not in network range"
  else if ip = p.networkAddress then .error "cannot allocate network address"
  else if ip = p.broadcastAddress then .error "cannot allocate broadcast address"
  else if ip = p.serverIP then .error "IP address reserved for server"
  else if ip ∈ p.allocated then .error "IP address already allocated"
  else .ok { p with allocated := insert ip p.allocated }

/-- `ReleaseIP` with the same check order as the source
(range, not-allocated, server). -/
def ReleaseIP (p : IPPool) (ip : Nat) : Except String IPPool :=
  if ¬ Contains p ip then .error "IP address not in network range"
  else if ip ∉ p.allocated then .error "IP address not allocated"
  else if ip = p.serverIP then .error "cannot release server IP"
  else .ok { p with allocated := p.allocated.erase ip }

/-- `IsAllocated`: Go map lookup with `false` default. -/
def IsAllocated (p : IPPool) (ip : Nat) : Bool :=
  decide (ip ∈ p.allocated)

/-- `GetAvailableCount` (Go `int` arithmetic, hence `Int`):
`totalHosts - 1 - (len(allocated) - 1)`. -/
def GetAvailableCount (p : IPPool) : Int :=
  (p.totalHosts : Int) - 1 - ((p.allocated.card : Int) - 1)

/-- `GetTotalIPs`. -/
def GetTotalIPs (p : IPPool) : Int := p.totalHosts

/-- `GetAllocatedCount`: `len(p.allocated)`. -/
def GetAllocatedCount (p : IPPool) : Int := p.allocated.card

/-- One successful mutating operation on the pool.  Failing calls return an
error without touching the state, so reachability is generated by the
success paths alone. -/
inductive Step : IPPool → IPPool → Prop
  | alloc {p : IPPool} (ip : Nat) {p' : IPPool} :
      AllocateIP p = .ok (ip, p') → Step p p'
  | allocSpec {p : IPPool} (ip : Nat) {p' : IPPool} :
      AllocateSpecificIP p ip = .ok p' → Step p p'
  | release {p : IPPool} (ip : Nat) {p' : IPPool} :
      ReleaseIP p ip = .ok p' → Step p p'

/-- States reachable from `p0` by any sequence of pool operations. -/
def Reachable (p0 p : IPPool) : Prop := Relation.ReflTransGen Step p0 p

/-- Structural invariant of a pool: holds after `NewIPPool` and is
preserved by every operation. -/
structure Inv (p : IPPool) : Prop where
  server_mem : p.serverIP ∈ p.allocated
  net_not_mem : p.networkAddress ∉ p.allocated
  bc_not_mem : p.broadcastAddress ∉ p.allocated
  net_eq : p.networkAddress = p.base
  server_eq : p.serverIP = p.base + 1
  bc_eq : p.broadcastAddress = p.base + 2 ^ (32 - p.prefixLen) - 1
  hosts3 : 3 ≤ 32 - p.prefixLen
  total_eq : p.totalHosts = 2 ^ (32 - p.prefixLen) - 2

theorem newIPPool_inv {ip ones : Nat} {p : IPPool}
    (h : NewIPPool ip ones = .ok p) : Inv p := by
  have hc : ¬ 32 - ones < 3 := by
    intro hc
    unfold NewIPPool at h
    rw [if_pos hc] at h
    exact Except.noConfusion h
  have h3 : 3 ≤ 32 - ones := by omega
  have h8 : (8 : Nat) ≤ 2 ^ (32 - ones) :=
    le_trans (by norm_num : (8 : Nat) ≤ 2 ^ 3)
      (Nat.pow_le_pow_right (by norm_num) h3)
  unfold NewIPPool at h
  rw [if_neg hc] at h
  injection h with h
  subst h
  refine ⟨Finset.mem_singleton_self _, ?_, ?_, rfl, rfl, rfl, h3, rfl⟩
  · simp only [Finset.mem_singleton]
    omega
  · simp only [Finset.mem_singleton]
    omega

/-- An address produced by the `AllocateIP` scan lies strictly between the
server IP and the broadcast address. -/
theorem allocateIP_range {p : IPPool} {a : Nat} {p' : IPPool}
    (h : AllocateIP p = .ok (a, p')) :
    p.base + 2 ≤ a ∧ a < p.broadcastAddress ∧ a ∉ p.allocated ∧
      p' = { p with allocated := insert a p.allocated } := by
  unfold AllocateIP at h
  split at h
  case h_2 => exact absurd h (by simp)
  case h_1 b hf =>
    have hmem := List.mem_of_find?_eq_some hf
    have hpred := List.find?_some hf
    simp only [Except.ok.injEq, Prod.mk.injEq] at h
    obtain ⟨hab, hp'⟩ := h
    subst hab
    rw [List.mem_range'_1] at hmem
    simp only [Bool.not_eq_true', decide_eq_false_iff_not] at hpred
    refine ⟨hmem.1, ?_, hpred, hp'.symm⟩
    omega

theorem step_inv {p p' : IPPool} (hs : Step p p') (hi : Inv p) : Inv p' := by
  cases hs with
  | alloc ip h =>
    obtain ⟨h1, h2, h3, h4⟩ := allocateIP_range h
    subst h4
    refine ⟨Finset.mem_insert_of_mem hi.server_mem, ?_, ?_,
      hi.net_eq, hi.server_eq, hi.bc_eq, hi.hosts3, hi.total_eq⟩
    · simp only [Finset.mem_insert, not_or]
      refine ⟨?_, hi.net_not_mem⟩
      have := hi.net_eq
      omega
    · simp only [Finset.mem_insert, not_or]
      refine ⟨?_, hi.bc_not_mem⟩
      omega
  | allocSpec ip h =>
    unfold AllocateSpecificIP at h
    split_ifs at h with hc hn hb hsv hal
    injection h with h
    subst h
    refine ⟨Finset.mem_insert_of_mem hi.server_mem, ?_, ?_,
      hi.net_eq, hi.server_eq, hi.bc_eq, hi.hosts3, hi.total_eq⟩
    · simp only [Finset.mem_insert, not_or]
      exact ⟨fun hx => hn hx.symm, hi.net_not_mem⟩
    · simp only [Finset.mem_insert, not_or]
      exact ⟨fun hx => hb hx.symm, hi.bc_not_mem⟩
  | release ip h =>
    unfold ReleaseIP at h
    split_ifs at h with hc hal hsv
    injection h with h
    subst h
    refine ⟨?_, ?_, ?_,
      hi.net_eq, hi.server_eq, hi.bc_eq, hi.hosts3, hi.total_eq⟩
    · exact Finset.mem_erase.mpr ⟨fun hx => hsv hx.symm, hi.server_mem⟩
    · exact fun hx => hi.net_not_mem (Finset.mem_of_mem_erase hx)
    · exact fun hx => hi.bc_not_mem (Finset.mem_of_mem_erase hx)

theorem reachable_inv {p0 p : IPPool} (h0 : Inv p0) (hr : Reachable p0 p) :
    Inv p := by
  induction hr with
  | refl => exact h0
  | tail _ hs ih => exact step_inv hs ih

/-- A sequence of `n` `AllocateIP` calls, returning the allocated addresses
in order together with the final pool (stops at the first failure, as a
caller looping over `AllocateIP` would). -/
def allocN (p : IPPool) : Nat → Except String (List Nat × IPPool)
  | 0 => .ok ([], p)
  | n + 1 =>
    match AllocateIP p with
    | .error e => .error e
    | .ok (ip, p1) =>
      match allocN p1 n with
      | .error e => .error e
      | .ok (ips, p2) => .ok (ip :: ips, p2)

/-- A sequence of `ReleaseIP` calls, one per listed address, stopping at
the first failure. -/
def releaseAll (p : IPPool) : List Nat → Except String IPPool
  | [] => .ok p
  | ip :: rest =>
    match ReleaseIP p ip with
    | .error e => .error e
    | .ok p1 => releaseAll p1 rest

theorem allocateIP_card {p : IPPool} {a : Nat} {p' : IPPool}
    (h : AllocateIP p = .ok (a, p')) :
    p'.allocated.card = p.allocated.card + 1 ∧ p'.totalHosts = p.totalHosts := by
  obtain ⟨_, _, h3, h4⟩ := allocateIP_range h
  subst h4
  exact ⟨Finset.card_insert_of_not_mem h3, rfl⟩

theorem releaseIP_card {p : IPPool} {ip : Nat} {p' : IPPool}
    (h : ReleaseIP p ip = .ok p') :
    p'.allocated.card + 1 = p.allocated.card ∧ p'.totalHosts = p.totalHosts := by
  unfold ReleaseIP at h
  split_ifs at h with hc hal hsv
  injection h with h
  subst h
  exact ⟨Finset.card_erase_add_one hal, rfl⟩

theorem allocN_card {n : Nat} {p : IPPool} {ips : List Nat} {p1 : IPPool}
    (h : allocN p n = .ok (ips, p1)) :
    p1.allocated.card = p.allocated.card + n ∧ ips.length = n ∧
      p1.totalHosts = p.totalHosts := by
  induction n generalizing p ips with
  | zero =>
    unfold allocN at h
    injection h with h
    injection h with hl hp
    subst hl
    subst hp
    exact ⟨rfl, rfl, rfl⟩
  | succ n ih =>
    unfold allocN at h
    split at h
    · exact absurd h (by simp)
    next a pa ha =>
      split at h
      · exact absurd h (by simp)
      next ips2 p2 h2 =>
        injection h with h
        injection h with hl hp
        subst hl
        subst hp
        obtain ⟨hca, hta⟩ := allocateIP_card ha
        obtain ⟨hc2, hl2, ht2⟩ := ih h2
        refine ⟨by omega, by simp [hl2], ht2.trans hta⟩

theorem releaseAll_card {ips : List Nat} {p p2 : IPPool}
    (h : releaseAll p ips = .ok p2) :
    p2.allocated.card + ips.length = p.allocated.card ∧
      p2.totalHosts = p.totalHosts := by
  induction ips generalizing p with
  | nil =>
    unfold releaseAll at h
    injection h with h
    rw [← h]
    exact ⟨rfl, rfl⟩
  | cons ip rest ih =>
    unfold releaseAll at h
    split at h
    · exact absurd h (by simp)
    next p1 h1 =>
      obtain ⟨hc1, ht1⟩ := releaseIP_card h1
      obtain ⟨hc2, ht2⟩ := ih h
      refine ⟨?_, ht2.trans ht1⟩
      simp only [List.length_cons]
      omega

/-- The pool built from `10.0.0.0/29` (10.0.0.0 = 167772160). -/
def pool29 : IPPool :=
  { base := 167772160, prefixLen := 29, serverIP := 167772161,
    allocated := {167772161}, networkAddress := 167772160,
    broadcastAddress := 167772167, totalHosts := 6 }

/-- `pool29` after one `AllocateIP` (which hands out 10.0.0.2). -/
def pool29a1 : IPPool :=
  { pool29 with allocated := {167772162, 167772161} }

/-- `pool29` after five `AllocateIP` calls: every usable client address
10.0.0.2 … 10.0.0.6 is taken. -/
def pool29full : IPPool :=
  { pool29 with
    allocated := {167772166, 167772165, 167772164, 167772163, 167772162, 167772161} }

/-- C2: on any pool built by `NewIPPool` from a /29-or-wider IPv4 CIDR, and
after any sequence of allocate/release operations, a successful
`AllocateIP` never returns the network address, the broadcast address, or
the server address. -/
theorem allocate_never_reserved (ip0 ones : Nat) (p0 p p' : IPPool) (a : Nat)
    (hnew : NewIPPool ip0 ones = .ok p0) (hr : Reachable p0 p)
    (halloc : AllocateIP p = .ok (a, p')) :
    a ≠ p.networkAddress ∧ a ≠ p.broadcastAddress ∧ a ≠ p.serverIP := by
  have hi : Inv p := reachable_inv (newIPPool_inv hnew) hr
  obtain ⟨h1, h2, _, _⟩ := allocateIP_range halloc
  have hn := hi.net_eq
  have hs := hi.server_eq
  omega

/-- Witness for C2 at the pool of `10.0.0.0/29` in its initial state. -/
theorem allocate_never_reserved_witness :
    (167772162 : Nat) ≠ pool29.networkAddress ∧
      (167772162 : Nat) ≠ pool29.broadcastAddress ∧
      (167772162 : Nat) ≠ pool29.serverIP :=
  allocate_never_reserved 167772160 29 pool29 pool29 pool29a1 167772162 rfl
    Relation.ReflTransGen.refl rfl

/-- C3 counterexample: immediately after construction (a reachable state),
`IsAllocated` is `false` on the network and broadcast addresses — the
constructor pre-marks only the server IP in the allocation map, so the
claim that all three reserved addresses satisfy `IsAllocated = true` fails. -/
theorem reserved_marked_cex :
    NewIPPool 167772160 29 = .ok pool29 ∧
    IsAllocated pool29 pool29.networkAddress = false ∧
    IsAllocated pool29 pool29.broadcastAddress = false :=
  ⟨rfl, rfl, rfl⟩

/-- C3 amended: in every reachable state the server address is marked
allocated and `ReleaseIP` refuses it; the network and broadcast addresses
are never in the allocation map (`IsAllocated` is `false` on them) and
`ReleaseIP` fails on them with a not-allocated error, so none of the three
can ever be released. -/
theorem reserved_protected (ip0 ones : Nat) (p0 p : IPPool)
    (hnew : NewIPPool ip0 ones = .ok p0) (hr : Reachable p0 p) :
    IsAllocated p p.serverIP = true ∧
    IsAllocated p p.networkAddress = false ∧
    IsAllocated p p.broadcastAddress = false ∧
    ReleaseIP p p.serverIP = .error "cannot release server IP" ∧
    ReleaseIP p p.networkAddress = .error "IP address not allocated" ∧
    ReleaseIP p p.broadcastAddress = .error "IP address not allocated" := by
  have hi : Inv p := reachable_inv (newIPPool_inv hnew) hr
  have h8 : (8 : Nat) ≤ 2 ^ (32 - p.prefixLen) :=
    le_trans (by norm_num : (8 : Nat) ≤ 2 ^ 3)
      (Nat.pow_le_pow_right (by norm_num) hi.hosts3)
  have hbc := hi.bc_eq
  have hnet := hi.net_eq
  have hsrv := hi.server_eq
  have hcs : Contains p p.serverIP = true := by
    unfold Contains
    rw [decide_eq_true_eq]
    omega
  have hcn : Contains p p.networkAddress = true := by
    unfold Contains
    rw [decide_eq_true_eq]
    omega
  have hcb : Contains p p.broadcastAddress = true := by
    unfold Contains
    rw [decide_eq_true_eq]
    omega
  refine ⟨decide_eq_true hi.server_mem, decide_eq_false hi.net_not_mem,
    decide_eq_false hi.bc_not_mem, ?_, ?_, ?_⟩
  · unfold ReleaseIP
    rw [if_neg (by simp [hcs]), if_neg (by simp [hi.server_mem]), if_pos rfl]
  · unfold ReleaseIP
    rw [if_neg (by simp [hcn]), if_pos hi.net_not_mem]
  · unfold ReleaseIP
    rw [if_neg (by simp [hcb]), if_pos hi.bc_not_mem]

/-- Witness for C3 amended at the freshly constructed `10.0.0.0/29` pool. -/
theorem reserved_protected_witness :
    IsAllocated pool29 pool29.serverIP = true ∧
    IsAllocated pool29 pool29.networkAddress = false ∧
    IsAllocated pool29 pool29.broadcastAddress = false ∧
    ReleaseIP pool29 pool29.serverIP = .error "cannot release server IP" ∧
    ReleaseIP pool29 pool29.networkAddress = .error "IP address not allocated" ∧
    ReleaseIP pool29 pool29.broadcastAddress = .error "IP address not allocated" :=
  reserved_protected 167772160 29 pool29 pool29 rfl Relation.ReflTransGen.refl

/-- C4: boundary behaviour of the `10.0.0.0/29` pool: 6 total hosts,
5 available after construction, the first five `AllocateIP` calls succeed
with pairwise distinct addresses, and the sixth fails with the
pool-exhausted error. -/
theorem pool29_boundary :
    NewIPPool 167772160 29 = .ok pool29 ∧
    GetTotalIPs pool29 = 6 ∧
    GetAvailableCount pool29 = 5 ∧
    allocN pool29 5 =
      .ok ([167772162, 167772163, 167772164, 167772165, 167772166], pool29full) ∧
    ([167772162, 167772163, 167772164, 167772165, 167772166] : List Nat).Nodup ∧
    AllocateIP pool29full = .error "no available IP addresses in pool" :=
  ⟨rfl, rfl, rfl, rfl, by decide, rfl⟩

/-- C5: `n` successful allocations followed by successful releases of all
`n` returned addresses bring `GetAvailableCount` back to its initial
value, from any starting state. -/
theorem alloc_release_available (p p1 p2 : IPPool) (n : Nat) (ips : List Nat)
    (hA : allocN p n = .ok (ips, p1)) (hR : releaseAll p1 ips = .ok p2) :
    GetAvailableCount p2 = GetAvailableCount p := by
  obtain ⟨hc1, hl, ht1⟩ := allocN_card hA
  obtain ⟨hc2, ht2⟩ := releaseAll_card hR
  unfold GetAvailableCount
  rw [ht2, ht1]
  have hcc : p2.allocated.card = p.allocated.card := by omega
  rw [hcc]

/-- Witness for C5: two allocations and two releases on the `/29` pool. -/
theorem alloc_release_available_witness :
    GetAvailableCount pool29 = GetAvailableCount pool29 :=
  alloc_release_available pool29 pool29full pool29 5
    [167772162, 167772163, 167772164, 167772165, 167772166] rfl rfl

/-- C10: in every pool state `GetAvailableCount + GetAllocatedCount =
GetTotalIPs`; each operation preserves the identity on its success path
(failure paths return the state untouched); and in every reachable state
the server IP occupies one allocated slot while the network and broadcast
addresses are in neither count (they are outside the allocation map, and
`totalHosts` already excludes them). -/
theorem counts_conservation (p : IPPool) :
    GetAvailableCount p + GetAllocatedCount p = GetTotalIPs p ∧
    (∀ a p', AllocateIP p = .ok (a, p') →
      GetAvailableCount p' + GetAllocatedCount p' = GetTotalIPs p') ∧
    (∀ ip p', AllocateSpecificIP p ip = .ok p' →
      GetAvailableCount p' + GetAllocatedCount p' = GetTotalIPs p') ∧
    (∀ ip p', ReleaseIP p ip = .ok p' →
      GetAvailableCount p' + GetAllocatedCount p' = GetTotalIPs p') ∧
    (∀ ip0 ones p0, NewIPPool ip0 ones = .ok p0 → Reachable p0 p →
      p.serverIP ∈ p.allocated ∧ p.networkAddress ∉ p.allocated ∧
        p.broadcastAddress ∉ p.allocated ∧
        p.totalHosts = 2 ^ (32 - p.prefixLen) - 2) := by
  have key : ∀ q : IPPool,
      GetAvailableCount q + GetAllocatedCount q = GetTotalIPs q := by
    intro q
    unfold GetAvailableCount GetAllocatedCount GetTotalIPs
    ring
  refine ⟨key p, fun _ p' _ => key p', fun _ p' _ => key p',
    fun _ p' _ => key p', ?_⟩
  intro ip0 ones p0 hnew hr
  have hi : Inv p := reachable_inv (newIPPool_inv hnew) hr
  exact ⟨hi.server_mem, hi.net_not_mem, hi.bc_not_mem, hi.total_eq⟩

/-- Witness for C10: the identity after a concrete successful allocation. -/
theorem counts_conservation_witness :
    GetAvailableCount pool29a1 + GetAllocatedCount pool29a1 = GetTotalIPs pool29a1 :=
  (counts_conservation pool29).2.1 167772162 pool29a1 rfl

end Pool

/-!
`WG` models the WireGuard config-file layer of
`internal/wireguard/server.go`: `AddPeer`, `RemovePeer` and `GetPeers`,
at the level of the file content (a sequence of characters).  The Go
string primitives (`strings.Split`, `strings.TrimSpace`,
`strings.HasPrefix`, `strings.Contains`, `bufio.Scanner` line splitting)
are re-implemented here over `List Char` by structural recursion so that
concrete runs evaluate inside the kernel; each mirrors the documented Go
semantics.
-/

namespace WG

/-- `strings.Split(s, sep)` for a non-empty separator, on character
lists, with bounded recursion (the fuel is always at least the length of
the input, so it never runs out). -/
def splitOnFuel (sep : List Char) : Nat → List Char → List (List Char)
  | _, [] => [[]]
  | 0, s => [s]
  | fuel + 1, c :: rest =>
    if sep.isPrefixOf (c :: rest) then
      [] :: splitOnFuel sep fuel ((c :: rest).drop sep.length)
    else
      match splitOnFuel sep fuel rest with
      | [] => [[c]]
      | g :: gs => (c :: g) :: gs

/-- `strings.Split(s, sep)`.  (Go explodes the string when `sep` is
empty; the code below never splits on an empty separator.) -/
def splitOnList (sep s : List Char) : List (List Char) :=
  if sep.isEmpty then [s] else splitOnFuel sep s.length s

/-- `strings.TrimSpace`. -/
def trimList (s : List Char) : List Char :=
  ((s.dropWhile Char.isWhitespace).reverse.dropWhile Char.isWhitespace).reverse

/-- `strings.Contains(s, sub)`. -/
def goContains (s sub : List Char) : Bool :=
  sub.isEmpty || (splitOnList sub s).length > 1

/-- `strings.SplitN(s, sep, 2)`. -/
def goSplitN2 (sep s : List Char) : List (List Char) :=
  match splitOnList sep s with
  | [] => []
  | [a] => [a]
  | a :: rest => [a, List.intercalate sep rest]

/-- The token stream of `bufio.Scanner` with `ScanLines`: split on
newlines, with no final empty token when the input ends in a newline. -/
def scanLines (s : List Char) : List (List Char) :=
  if s.isEmpty then []
  else
    let ls := splitOnList ['\n'] s
    if ls.getLast? = some [] then ls.dropLast else ls

/-- Mirrors the Go `Peer` struct of `internal/wireguard/server.go`. -/
structure Peer where
  publicKey : String
  allowedIPs : List String
  endpoint : String
  persistentKA : Int
deriving DecidableEq

/-- `AddPeer` on the config-file content: appends a `[Peer]` stanza
exactly as the `fmt.Sprintf` calls in the source build it. -/
def AddPeer (content : String) (peer : Peer) : String :=
  let pc :=
    "\n[Peer]\nPublicKey = " ++ peer.publicKey ++ "\nAllowedIPs = " ++
      String.intercalate ", " peer.allowedIPs ++ "\n"
  let pc :=
    if peer.endpoint ≠ "" then pc ++ "Endpoint = " ++ peer.endpoint ++ "\n" else pc
  let pc :=
    if peer.persistentKA > 0 then
      pc ++ "PersistentKeepalive = " ++ toString peer.persistentKA ++ "\n"
    else pc
  content ++ pc

/-- The control state of the `RemovePeer` scan loop: either in the outer
loop (with the `skipPeerSection` flag), or inside the look-ahead loop
that reads a `[Peer]` section into `tempLines`. -/
inductive RMode where
  | outer (skip : Bool)
  | sect (temp : List (List Char))

/-- The line-processing loop of `RemovePeer`, flattened into a single
pass.  The correspondence with the Go loop:

* `.outer skip` is the outer `for scanner.Scan()` loop with
  `skipPeerSection = skip`; a `[Peer]` line enters the look-ahead loop
  with `tempLines := [line]`, any other line is kept unless skipping, and
  a section header or blank line ends a skip.
* `.sect temp` is the inner look-ahead loop; every scanned line is first
  appended to `tempLines`.  A `PublicKey` line containing the target key
  discards `tempLines` and resumes the outer loop in skip mode.  A
  section header or blank line `t` hits the
  `scanner = bufio.NewScanner(strings.NewReader(nextLine + "\n"))`
  statement: `tempLines` (ending in `t`) is emitted, and the outer loop
  then runs on the single-token stream `[t]` — which emits `t` once more
  and terminates, discarding every remaining line of the file.  At end of
  input `tempLines` is emitted.
-/
def removeLines (pk : List Char) (m : RMode) (ts : List (List Char)) :
    List (List Char) :=
  match m, ts with
  | .outer _, [] => []
  | .sect temp, [] => temp
  | .outer skip, t :: rest =>
    if trimList t = ['[', 'P', 'e', 'e', 'r', ']'] then
      removeLines pk (.sect [t]) rest
    else
      (if skip then [] else [t]) ++
        removeLines pk
          (.outer
            (if skip && ((['['].isPrefixOf (trimList t)) || (trimList t).isEmpty)
             then false else skip))
          rest
  | .sect temp, t :: rest =>
    if (("PublicKey = ".data).isPrefixOf (trimList t)) && goContains t pk then
      removeLines pk (.outer true) rest
    else if (['['].isPrefixOf (trimList t)) || (trimList t).isEmpty then
      temp ++ [t] ++ [t]
    else
      removeLines pk (.sect (temp ++ [t])) rest
termination_by structural ts

/-- `RemovePeer` on the config-file content: scan the lines, drop the
section whose `PublicKey` line contains `pk`, and rejoin with
`strings.Join(newLines, "\n")`. -/
def RemovePeer (content : String) (pk : String) : String :=
  ⟨List.intercalate ['\n'] (removeLines pk.data (.outer false) (scanLines content.data))⟩

/-- The parsing loop of `GetPeers`: walks the `strings.Split(content,
"\n")` lines with an optional current peer, starting a fresh peer at
each `[Peer]` header and flushing the previous one if it had a public
key. -/
def parsePeersLoop : List (List Char) → Option Peer → List Peer
  | [], cur =>
    match cur with
    | some c => if c.publicKey ≠ "" then [c] else []
    | none => []
  | l :: rest, cur =>
    let line := trimList l
    if line.isEmpty || (['#'].isPrefixOf line) then parsePeersLoop rest cur
    else if line = ['[', 'P', 'e', 'e', 'r', ']'] then
      (match cur with
       | some c => if c.publicKey ≠ "" then [c] else []
       | none => []) ++ parsePeersLoop rest (some ⟨"", [], "", 0⟩)
    else
      match cur with
      | none => parsePeersLoop rest none
      | some c =>
        if goContains line ['='] then
          match goSplitN2 ['='] line with
          | [k, v] =>
            let key := trimList k
            let value := trimList v
            if key = ("PublicKey".data) then
              parsePeersLoop rest (some { c with publicKey := ⟨value⟩ })
            else if key = ("AllowedIPs".data) then
              parsePeersLoop rest
                (some { c with
                  allowedIPs :=
                    (splitOnList [','] value).map (fun i => (⟨trimList i⟩ : String)) })
            else if key = ("Endpoint".data) then
              parsePeersLoop rest (some { c with endpoint := ⟨value⟩ })
            else if key = ("PersistentKeepalive".data) then
              match (String.mk value).toInt? with
              | some kv => parsePeersLoop rest (some { c with persistentKA := kv })
              | none => parsePeersLoop rest (some c)
            else parsePeersLoop rest (some c)
          | _ => parsePeersLoop rest (some c)
        else parsePeersLoop rest (some c)

/-- `GetPeers` on the config-file content (the missing-file and
read-error branches concern the filesystem, not the parse). -/
def GetPeers (content : String) : List Peer :=
  parsePeersLoop (splitOnList ['\n'] content.data) none

/-- How many of the parsed peers carry the given public key. -/
def countPK (ps : List Peer) (pk : String) : Nat :=
  (ps.filter (fun p => p.publicKey == pk)).length

/-- A server `[Interface]` stanza, and three peers appended by `AddPeer`. -/
def baseConf : String := "[Interface]\nPrivateKey = SERVER\nListenPort = 51820\n"

def peerA : Peer := ⟨"AAAA", ["10.0.0.2/32"], "", 0⟩

def peerB : Peer := ⟨"BBBB", ["10.0.0.3/32"], "", 0⟩

def peerC : Peer := ⟨"CCCC", ["10.0.0.4/32"], "", 0⟩

def conf3 : String := AddPeer (AddPeer (AddPeer baseConf peerA) peerB) peerC

set_option maxRecDepth 40000 in
/-- C1: the add half of the round-trip holds on this file (each added
peer is parsed back exactly once), and `RemovePeer` of peer C does make
`GetPeers` stop returning C — but it also destroys the `[Peer]` section
of the untouched peer B: after scanning past the non-matching section of
peer A, the loop replaces its scanner with a one-line reader and never
reads the rest of the file, so every peer section after the first one is
dropped from the rewritten config.  This contradicts the claim that all
other peer sections are left intact. -/
theorem removePeer_data_loss :
    countPK (GetPeers conf3) "AAAA" = 1 ∧
    countPK (GetPeers conf3) "BBBB" = 1 ∧
    countPK (GetPeers conf3) "CCCC" = 1 ∧
    countPK (GetPeers (RemovePeer conf3 "CCCC")) "CCCC" = 0 ∧
    countPK (GetPeers (RemovePeer conf3 "CCCC")) "AAAA" = 1 ∧
    countPK (GetPeers (RemovePeer conf3 "CCCC")) "BBBB" = 0 := by
  decide

end WG

/-!
`Alerts` models the alert manager of `internal/monitoring` (AlertManager,
EvaluateMetrics, createOrUpdateAlert, resolveAlert, SuppressAlert,
GetActiveAlerts, GetAllAlerts, cleanupResolvedAlerts).

* `time.Time` and `time.Duration` are nanosecond counts (`Int`), matching
  their Go representation; `t1.After(t2)` is `t2 < t1` and `t1.Sub(t2)` is
  `t1 - t2`.
* Go `float64` metric values and thresholds are rationals; every
  comparison the code performs on them is an order comparison, which
  agrees with the float comparison on the exactly-representable values
  involved.
* Go maps (`alerts map[string]*Alert`, `Metadata map[string]interface{}`)
  are association lists with at most one live binding per key: lookup
  takes the first binding, assignment rewrites the bindings of that key
  in place or appends a fresh one.
* `fmt.Sprintf` descriptions are assembled with `toString` of the exact
  numeric value in place of `%.1f`/`%d`; no claim depends on the text.
* Metric struct fields the alert manager never reads are omitted.
-/

namespace Alerts

abbrev Time := Int

abbrev Duration := Int

/-- One hour in nanoseconds (`time.Hour`). -/
def nsPerHour : Duration := 3600 * 1000000000

/-- A value stored in an alert metadata map (`interface\x7b\x7d` in Go):
the code stores floats, ints, bools and times. -/
inductive MetaVal where
  | num (q : ℚ)
  | int (n : Int)
  | bool (b : Bool)
  | time (t : Time)
deriving DecidableEq

inductive AlertStatus where
  | active
  | resolved
  | suppressed
deriving DecidableEq, BEq

inductive Severity where
  | low
  | medium
  | high
  | critical
deriving DecidableEq

inductive AlertType where
  | system
  | network
  | security
  | connection
  | performance
  | application
deriving DecidableEq

/-- Mirrors the Go `Alert` struct. -/
structure Alert where
  ID : String
  type : AlertType
  severity : Severity
  title : String
  description : String
  createdAt : Time
  updatedAt : Time
  resolvedAt : Option Time
  status : AlertStatus
  metadata : List (String × MetaVal)
  count : Int
deriving DecidableEq

/-- Mirrors the Go `AlertConfig` struct. -/
structure AlertConfig where
  cpuThreshold : ℚ
  memoryThreshold : ℚ
  diskThreshold : ℚ
  connectionThreshold : Int
  responseTimeThreshold : Duration
  errorRateThreshold : ℚ
  enableAlerts : Bool
  alertCooldown : Duration
  notificationChannels : List String
deriving DecidableEq

/-- The fields of `SystemStats` read by the alert rules. -/
structure SystemStats where
  cpuUsage : ℚ
  memoryUsage : ℚ
  diskUsage : ℚ
deriving DecidableEq

structure NetworkStats where
  ipPoolUtilization : ℚ
deriving DecidableEq

structure SecurityStats where
  firewallEnabled : Bool
  failedLogins : Int
deriving DecidableEq

structure ConnectionStats where
  activeClients : Int
deriving DecidableEq

structure PerformanceMetrics where
  responseTime : Duration
  errorRate : ℚ
deriving DecidableEq

structure ServerMetrics where
  systemStats : SystemStats
  networkStats : NetworkStats
  securityStats : SecurityStats
  connectionStats : ConnectionStats
  performance : PerformanceMetrics
deriving DecidableEq

/-- Mirrors the Go `AlertManager` (without the mutex; evaluation holds it
for the whole call, so one call is one atomic state transition). -/
structure AlertManager where
  alerts : List (String × Alert)
  config : AlertConfig
  lastEvalTime : Time
deriving DecidableEq

/-- The defaults of `NewAlertManager`. -/
def defaultConfig : AlertConfig :=
  { cpuThreshold := 80, memoryThreshold := 85, diskThreshold := 90,
    connectionThreshold := 1000, responseTimeThreshold := 5 * 1000000000,
    errorRateThreshold := 5, enableAlerts := true,
    alertCooldown := 5 * 60 * 1000000000, notificationChannels := ["log"] }

/-- `NewAlertManager` (Go records `time.Now()` as `lastEvalTime`). -/
def NewAlertManager (now : Time) : AlertManager :=
  { alerts := [], config := defaultConfig, lastEvalTime := now }

/-- Whether a Go map, modelled as an association list, has a binding for
`id`. -/
def containsKey {β : Type} (l : List (String × β)) (id : String) : Bool :=
  match l with
  | [] => false
  | kv :: rest => kv.1 == id || containsKey rest id

/-- Go map read `m[id]` (first binding of the key). -/
def alookup {β : Type} (l : List (String × β)) (id : String) : Option β :=
  match l with
  | [] => none
  | kv :: rest => if kv.1 == id then some kv.2 else alookup rest id

/-- Go map write `m[id] = v`: rewrite the bindings of the key in place,
or append a fresh binding. -/
def aupdate {β : Type} (l : List (String × β)) (id : String) (v : β) :
    List (String × β) :=
  if containsKey l id then
    l.map (fun kv => if kv.1 == id then (id, v) else kv)
  else l ++ [(id, v)]

/-- Go map read `am.alerts[id]`. -/
def lookupAlert (m : List (String × Alert)) (id : String) : Option Alert :=
  alookup m id

/-- The metadata merge loop of `createOrUpdateAlert`
(`for k, v := range metadata`). -/
def mergeMeta (old new : List (String × MetaVal)) : List (String × MetaVal) :=
  new.foldl (fun acc kv => aupdate acc kv.1 kv.2) old

/-- The updated alert written by `createOrUpdateAlert` when the id is
already present: count incremented, `updated_at` refreshed, metadata
merged. -/
def updAlert (a : Alert) (now : Time) (metadata : List (String × MetaVal)) : Alert :=
  { a with
    updatedAt := now
    count := a.count + 1
    metadata := mergeMeta a.metadata metadata }

/-- The fresh alert written by `createOrUpdateAlert` when the id is new:
status active, `count = 1`. -/
def freshAlert (id : String) (ty : AlertType) (sev : Severity)
    (title descr : String) (now : Time) (metadata : List (String × MetaVal)) :
    Alert :=
  { ID := id, type := ty, severity := sev, title := title,
    description := descr, createdAt := now, updatedAt := now,
    resolvedAt := none, status := .active, metadata := metadata,
    count := 1 }

/-- The alert written by `resolveAlert`: resolved, with `resolved_at` and
`updated_at` set to the evaluation time. -/
def resAlert (a : Alert) (now : Time) : Alert :=
  { a with
    status := .resolved
    resolvedAt := some now
    updatedAt := now }

/-- `createOrUpdateAlert` (the unexported helper). -/
def createOrUpdateAlert (am : AlertManager) (id : String) (ty : AlertType)
    (sev : Severity) (title descr : String) (now : Time)
    (metadata : List (String × MetaVal)) : AlertManager :=
  match lookupAlert am.alerts id with
  | some alert =>
    { am with alerts := aupdate am.alerts id (updAlert alert now metadata) }
  | none =>
    { am with alerts :=
        aupdate am.alerts id (freshAlert id ty sev title descr now metadata) }

/-- `resolveAlert` (the unexported helper): resolves only an existing,
active alert. -/
def resolveAlert (am : AlertManager) (id : String) (now : Time) : AlertManager :=
  match lookupAlert am.alerts id with
  | some alert =>
    if alert.status = .active then
      { am with alerts := aupdate am.alerts id (resAlert alert now) }
    else am
  | none => am

/-- The deletion condition of `cleanupResolvedAlerts`: resolved more than
24 hours before `now`. -/
def delCond (a : Alert) (now : Time) : Bool :=
  (a.status == .resolved) &&
    (match a.resolvedAt with
     | some t => decide (now - t > 24 * nsPerHour)
     | none => false)

/-- `cleanupResolvedAlerts`. -/
def cleanupResolvedAlerts (am : AlertManager) (now : Time) : AlertManager :=
  { am with alerts := am.alerts.filter (fun kv => !delCond kv.2 now) }

/-- One built-in threshold rule, as evaluated by the `evaluate*Alerts`
helpers: its stable id, the condition on the sampled metrics, and the
alert fields passed to `createOrUpdateAlert` when the condition holds. -/
structure Rule where
  id : String
  type : AlertType
  cond : AlertConfig → ServerMetrics → Bool
  severity : ServerMetrics → Severity
  title : String
  descr : AlertConfig → ServerMetrics → String
  metadata : AlertConfig → ServerMetrics → List (String × MetaVal)

/-- `evaluateSystemAlerts`, CPU branch. -/
def ruleCPU : Rule :=
  { id := "system_cpu_high", type := .system,
    cond := fun cfg m => decide (cfg.cpuThreshold < m.systemStats.cpuUsage),
    severity := fun _ => .high, title := "High CPU Usage",
    descr := fun cfg m =>
      "CPU usage is " ++ toString m.systemStats.cpuUsage ++
        "%, exceeding threshold of " ++ toString cfg.cpuThreshold ++ "%",
    metadata := fun cfg m =>
      [("cpu_usage", .num m.systemStats.cpuUsage),
       ("threshold", .num cfg.cpuThreshold)] }

/-- `evaluateSystemAlerts`, memory branch. -/
def ruleMemory : Rule :=
  { id := "system_memory_high", type := .system,
    cond := fun cfg m => decide (cfg.memoryThreshold < m.systemStats.memoryUsage),
    severity := fun _ => .high, title := "High Memory Usage",
    descr := fun cfg m =>
      "Memory usage is " ++ toString m.systemStats.memoryUsage ++
        "%, exceeding threshold of " ++ toString cfg.memoryThreshold ++ "%",
    metadata := fun cfg m =>
      [("memory_usage", .num m.systemStats.memoryUsage),
       ("threshold", .num cfg.memoryThreshold)] }

/-- `evaluateSystemAlerts`, disk branch. -/
def ruleDisk : Rule :=
  { id := "system_disk_high", type := .system,
    cond := fun cfg m => decide (cfg.diskThreshold < m.systemStats.diskUsage),
    severity := fun _ => .critical, title := "High Disk Usage",
    descr := fun cfg m =>
      "Disk usage is " ++ toString m.systemStats.diskUsage ++
        "%, exceeding threshold of " ++ toString cfg.diskThreshold ++ "%",
    metadata := fun cfg m =>
      [("disk_usage", .num m.systemStats.diskUsage),
       ("threshold", .num cfg.diskThreshold)] }

/-- `evaluateNetworkAlerts`: utilisation above 90 percent, severity high
above 95 percent. -/
def ruleIPPool : Rule :=
  { id := "network_ip_pool_high", type := .network,
    cond := fun _ m => decide ((90 : ℚ) < m.networkStats.ipPoolUtilization),
    severity := fun m =>
      if (95 : ℚ) < m.networkStats.ipPoolUtilization then .high else .medium,
    title := "High IP Pool Utilization",
    descr := fun _ m =>
      "IP pool utilization is " ++ toString m.networkStats.ipPoolUtilization ++
        "%, nearing capacity",
    metadata := fun _ m =>
      [("utilization", .num m.networkStats.ipPoolUtilization)] }

/-- `evaluateSecurityAlerts`, firewall branch. -/
def ruleFirewall : Rule :=
  { id := "security_firewall_disabled", type := .security,
    cond := fun _ m => !m.securityStats.firewallEnabled,
    severity := fun _ => .critical, title := "Firewall Disabled",
    descr := fun _ _ =>
      "The pfctl firewall is disabled, leaving the server vulnerable",
    metadata := fun _ m =>
      [("firewall_enabled", .bool m.securityStats.firewallEnabled)] }

/-- `evaluateSecurityAlerts`, failed-logins branch. -/
def ruleFailedLogins : Rule :=
  { id := "security_failed_logins", type := .security,
    cond := fun _ m => decide ((10 : Int) < m.securityStats.failedLogins),
    severity := fun _ => .medium, title := "High Failed Login Attempts",
    descr := fun _ m =>
      "Detected " ++ toString m.securityStats.failedLogins ++
        " failed login attempts",
    metadata := fun _ m =>
      [("failed_logins", .int m.securityStats.failedLogins)] }

/-- `evaluateConnectionAlerts`. -/
def ruleConnections : Rule :=
  { id := "connection_high_count", type := .connection,
    cond := fun cfg m =>
      decide (cfg.connectionThreshold < m.connectionStats.activeClients),
    severity := fun _ => .medium, title := "High Active Connection Count",
    descr := fun cfg m =>
      "Active connections (" ++ toString m.connectionStats.activeClients ++
        ") exceed threshold (" ++ toString cfg.connectionThreshold ++ ")",
    metadata := fun cfg m =>
      [("active_clients", .int m.connectionStats.activeClients),
       ("threshold", .int cfg.connectionThreshold)] }

/-- `evaluatePerformanceAlerts`, response-time branch. -/
def ruleResponseTime : Rule :=
  { id := "performance_response_time", type := .performance,
    cond := fun cfg m =>
      decide (cfg.responseTimeThreshold < m.performance.responseTime),
    severity := fun _ => .medium, title := "High Response Time",
    descr := fun cfg m =>
      "Response time (" ++ toString m.performance.responseTime ++
        ") exceeds threshold (" ++ toString cfg.responseTimeThreshold ++ ")",
    metadata := fun cfg m =>
      [("response_time", .int m.performance.responseTime),
       ("threshold", .int cfg.responseTimeThreshold)] }

/-- `evaluatePerformanceAlerts`, error-rate branch. -/
def ruleErrorRate : Rule :=
  { id := "performance_error_rate", type := .performance,
    cond := fun cfg m => decide (cfg.errorRateThreshold < m.performance.errorRate),
    severity := fun _ => .high, title := "High Error Rate",
    descr := fun cfg m =>
      "Error rate (" ++ toString m.performance.errorRate ++
        "%) exceeds threshold (" ++ toString cfg.errorRateThreshold ++ "%)",
    metadata := fun cfg m =>
      [("error_rate", .num m.performance.errorRate),
       ("threshold", .num cfg.errorRateThreshold)] }

/-- The rules in the order `EvaluateMetrics` runs them (system, network,
security, connection, performance). -/
def ruleList : List Rule :=
  [ruleCPU, ruleMemory, ruleDisk, ruleIPPool, ruleFirewall, ruleFailedLogins,
   ruleConnections, ruleResponseTime, ruleErrorRate]

/-- One rule evaluation: the `if condition ... createOrUpdateAlert ... else
resolveAlert` pattern common to all `evaluate*Alerts` branches. -/
def evaluateRule (am : AlertManager) (r : Rule) (m : ServerMetrics) (now : Time) :
    AlertManager :=
  if r.cond am.config m then
    createOrUpdateAlert am r.id r.type (r.severity m) r.title (r.descr am.config m)
      now (r.metadata am.config m)
  else
    resolveAlert am r.id now

/-- `EvaluateMetrics`: no-op when alerts are disabled, otherwise records
the evaluation time, runs every rule in order, and cleans up stale
resolved alerts. -/
def EvaluateMetrics (am : AlertManager) (m : ServerMetrics) (now : Time) :
    AlertManager :=
  if !am.config.enableAlerts then am
  else
    cleanupResolvedAlerts
      (ruleList.foldl (fun acc r => evaluateRule acc r m now)
        { am with lastEvalTime := now })
      now

/-- `GetActiveAlerts`. -/
def GetActiveAlerts (am : AlertManager) : List Alert :=
  (am.alerts.filter (fun kv => kv.2.status == .active)).map Prod.snd

/-- `GetAllAlerts` (`alert.CreatedAt.After(since)`). -/
def GetAllAlerts (am : AlertManager) (since : Time) : List Alert :=
  (am.alerts.filter (fun kv => decide (since < kv.2.createdAt))).map Prod.snd

/-- The alert written by `SuppressAlert`: suppressed, with
`suppressed_until = now + d` recorded in the metadata map. -/
def suppAlert (a : Alert) (d : Duration) (now : Time) : Alert :=
  { a with
    status := .suppressed
    updatedAt := now
    metadata := aupdate a.metadata "suppressed_until" (.time (now + d)) }

/-- `SuppressAlert`: marks an existing alert suppressed and records
`suppressed_until = now + duration` in its metadata. -/
def SuppressAlert (am : AlertManager) (id : String) (d : Duration) (now : Time) :
    Except String AlertManager :=
  match lookupAlert am.alerts id with
  | none => .error "alert not found"
  | some alert =>
    .ok { am with alerts := aupdate am.alerts id (suppAlert alert d now) }

/-- All bindings of a key in the alert map carry the same value. -/
def AllAt (l : List (String × Alert)) (id : String) (v : Alert) : Prop :=
  ∀ kv ∈ l, kv.1 = id → kv.2 = v

theorem containsKey_false_forall {β : Type} {m : List (String × β)} {id : String}
    (h : containsKey m id = false) : ∀ kv ∈ m, (kv.1 == id) = false := by
  induction m with
  | nil => intro kv hkv; exact absurd hkv (by simp)
  | cons kv0 rest ih =>
    have hsplit : (kv0.1 == id) = false ∧ containsKey rest id = false := by
      simpa [containsKey] using h
    intro kv hkv
    rcases List.mem_cons.mp hkv with hh | ht
    · rw [hh]; exact hsplit.1
    · exact ih hsplit.2 kv ht

theorem alookup_map_update {m : List (String × Alert)} {id : String} {a : Alert}
    (h : containsKey m id = true) :
    alookup (m.map (fun kv => if kv.1 == id then (id, a) else kv)) id = some a := by
  induction m with
  | nil => simp [containsKey] at h
  | cons kv rest ih =>
    by_cases hk : (kv.1 == id) = true
    · simp [alookup, hk]
    · have h2 : containsKey rest id = true := by
        simpa [containsKey, hk] using h
      simpa [alookup, hk] using ih h2

theorem alookup_append_single {m : List (String × Alert)} {id : String} {a : Alert}
    (h : containsKey m id = false) :
    alookup (m ++ [(id, a)]) id = some a := by
  induction m with
  | nil => simp [alookup]
  | cons kv rest ih =>
    have hsplit : (kv.1 == id) = false ∧ containsKey rest id = false := by
      simpa [containsKey] using h
    simpa [alookup, hsplit.1] using ih hsplit.2

theorem lookup_update_self (m : List (String × Alert)) (id : String) (a : Alert) :
    lookupAlert (aupdate m id a) id = some a := by
  unfold aupdate lookupAlert
  split
  next h => exact alookup_map_update h
  next h => exact alookup_append_single (Bool.eq_false_iff.mpr h)

theorem alookup_map_update_ne {m : List (String × Alert)} {id id' : String}
    {a : Alert} (h : id' ≠ id) :
    alookup (m.map (fun kv => if kv.1 == id then (id, a) else kv)) id' =
      alookup m id' := by
  have hne : ((id : String) == id') = false := by
    simp only [beq_eq_false_iff_ne, ne_eq]
    exact fun hc => h hc.symm
  induction m with
  | nil => simp
  | cons kv rest ih =>
    by_cases hk : (kv.1 == id) = true
    · have hk1 : kv.1 = id := by simpa using hk
      have hkne : (kv.1 == id') = false := by rw [hk1]; exact hne
      simpa [alookup, hk, hne, hkne] using ih
    · by_cases hk' : (kv.1 == id') = true
      · simp [alookup, hk, hk']
      · simpa [alookup, hk, hk'] using ih

theorem alookup_append_single_ne {m : List (String × Alert)} {id id' : String}
    {a : Alert} (h : id' ≠ id) :
    alookup (m ++ [(id, a)]) id' = alookup m id' := by
  have hne : ((id : String) == id') = false := by
    simp only [beq_eq_false_iff_ne, ne_eq]
    exact fun hc => h hc.symm
  induction m with
  | nil => simp [alookup, hne]
  | cons kv rest ih =>
    by_cases hk' : (kv.1 == id') = true
    · simp [alookup, hk']
    · simpa [alookup, hk'] using ih

theorem lookup_update_ne (m : List (String × Alert)) (id id' : String) (a : Alert)
    (h : id' ≠ id) :
    lookupAlert (aupdate m id a) id' = lookupAlert m id' := by
  unfold aupdate lookupAlert
  split
  · exact alookup_map_update_ne h
  · exact alookup_append_single_ne h

theorem allAt_update_self (m : List (String × Alert)) (id : String) (a : Alert) :
    AllAt (aupdate m id a) id a := by
  unfold aupdate
  split
  next h =>
    intro kv hkv hk
    obtain ⟨kv0, hkv0, hmap⟩ := List.mem_map.mp hkv
    by_cases hk0 : (kv0.1 == id) = true
    · rw [if_pos hk0] at hmap
      rw [← hmap]
    · rw [if_neg hk0] at hmap
      subst hmap
      exact absurd (by simpa using hk) hk0
  next h =>
    have hall := containsKey_false_forall (Bool.eq_false_iff.mpr h)
    intro kv hkv hk
    rcases List.mem_append.mp hkv with hm | hs
    · have := hall kv hm
      rw [show kv.1 = id from hk] at this
      simp at this
    · simp only [List.mem_singleton] at hs
      rw [hs]

theorem allAt_update_ne (m : List (String × Alert)) (id id' : String) (a v : Alert)
    (h : id' ≠ id) (hm : AllAt m id v) :
    AllAt (aupdate m id' a) id v := by
  unfold aupdate
  split
  · intro kv hkv hk
    obtain ⟨kv0, hkv0, hmap⟩ := List.mem_map.mp hkv
    by_cases hk0 : (kv0.1 == id') = true
    · rw [if_pos hk0] at hmap
      rw [← hmap] at hk
      exact absurd (show id' = id by simpa using hk) h
    · rw [if_neg hk0] at hmap
      subst hmap
      exact hm kv0 hkv0 hk
  · intro kv hkv hk
    rcases List.mem_append.mp hkv with hmm | hs
    · exact hm kv hmm hk
    · simp only [List.mem_singleton] at hs
      rw [hs] at hk
      exact absurd (show id' = id by simpa using hk) h

theorem lookup_mem {l : List (String × Alert)} {id : String} {v : Alert}
    (h : lookupAlert l id = some v) : (id, v) ∈ l := by
  unfold lookupAlert at h
  induction l with
  | nil => simp [alookup] at h
  | cons kv rest ih =>
    by_cases hk : (kv.1 == id) = true
    · have hk1 : kv.1 = id := by simpa using hk
      have hv : kv.2 = v := by simpa [alookup, hk] using h
      have : kv = (id, v) := by rw [← hk1, ← hv]
      rw [← this]
      exact List.mem_cons_self kv rest
    · have h2 : alookup rest id = some v := by simpa [alookup, hk] using h
      exact List.mem_cons_of_mem kv (ih h2)

theorem lookup_filter_keep {l : List (String × Alert)} {q : String × Alert → Bool}
    {id : String} {a : Alert}
    (hl : lookupAlert l id = some a) (hq : q (id, a) = true) :
    lookupAlert (l.filter q) id = some a := by
  unfold lookupAlert at hl ⊢
  induction l with
  | nil => simp [alookup] at hl
  | cons kv rest ih =>
    by_cases hk : (kv.1 == id) = true
    · have hk1 : kv.1 = id := by simpa using hk
      have hva : kv.2 = a := by simpa [alookup, hk] using hl
      have hkv : kv = (id, a) := by rw [← hk1, ← hva]
      rw [List.filter_cons, if_pos (by rw [hkv]; exact hq)]
      simp [alookup, hk, hva]
    · have hl2 : alookup rest id = some a := by simpa [alookup, hk] using hl
      rw [List.filter_cons]
      split
      · simpa [alookup, hk] using ih hl2
      · exact ih hl2

theorem lookup_filter_none {l : List (String × Alert)} {q : String × Alert → Bool}
    {id : String}
    (hl : lookupAlert l id = none) :
    lookupAlert (l.filter q) id = none := by
  unfold lookupAlert at hl ⊢
  induction l with
  | nil => simp [alookup]
  | cons kv rest ih =>
    by_cases hk : (kv.1 == id) = true
    · simp [alookup, hk] at hl
    · have hl2 : alookup rest id = none := by simpa [alookup, hk] using hl
      rw [List.filter_cons]
      split
      · simpa [alookup, hk] using ih hl2
      · exact ih hl2

theorem allAt_filter_out {l : List (String × Alert)} {q : String × Alert → Bool}
    {id : String} {v : Alert}
    (hall : AllAt l id v) (hq : q (id, v) = false) :
    lookupAlert (l.filter q) id = none := by
  unfold lookupAlert
  induction l with
  | nil => simp [alookup]
  | cons kv rest ih =>
    have htail : AllAt rest id v := fun x hx => hall x (List.mem_cons_of_mem kv hx)
    by_cases hk : (kv.1 == id) = true
    · have hk1 : kv.1 = id := by simpa using hk
      have hv : kv.2 = v := hall kv (List.mem_cons_self kv rest) hk1
      have hkv : kv = (id, v) := by rw [← hk1, ← hv]
      rw [List.filter_cons, if_neg (by rw [hkv, hq]; simp)]
      exact ih htail
    · rw [List.filter_cons]
      split
      · simpa [alookup, hk] using ih htail
      · exact ih htail

theorem config_coua (am : AlertManager) (id : String) (ty : AlertType)
    (sev : Severity) (t d : String) (now : Time) (md : List (String × MetaVal)) :
    (createOrUpdateAlert am id ty sev t d now md).config = am.config := by
  unfold createOrUpdateAlert
  split <;> rfl

theorem config_resolve (am : AlertManager) (id : String) (now : Time) :
    (resolveAlert am id now).config = am.config := by
  unfold resolveAlert
  split
  · split <;> rfl
  · rfl

theorem config_evalRule (am : AlertManager) (r : Rule) (m : ServerMetrics)
    (now : Time) :
    (evaluateRule am r m now).config = am.config := by
  unfold evaluateRule
  split
  · exact config_coua am r.id r.type (r.severity m) r.title (r.descr am.config m)
      now (r.metadata am.config m)
  · exact config_resolve am r.id now

theorem config_fold (rs : List Rule) (m : ServerMetrics) (now : Time) :
    ∀ am : AlertManager,
      (rs.foldl (fun acc r => evaluateRule acc r m now) am).config = am.config := by
  induction rs with
  | nil => intro am; rfl
  | cons r rest ih =>
    intro am
    rw [List.foldl_cons, ih, config_evalRule]

theorem lookup_coua_ne (am : AlertManager) (id id' : String) (ty : AlertType)
    (sev : Severity) (t d : String) (now : Time) (md : List (String × MetaVal))
    (h : id' ≠ id) :
    lookupAlert (createOrUpdateAlert am id ty sev t d now md).alerts id' =
      lookupAlert am.alerts id' := by
  unfold createOrUpdateAlert
  split <;> exact lookup_update_ne _ _ _ _ h

theorem lookup_resolve_ne (am : AlertManager) (id id' : String) (now : Time)
    (h : id' ≠ id) :
    lookupAlert (resolveAlert am id now).alerts id' = lookupAlert am.alerts id' := by
  unfold resolveAlert
  split
  · split
    · exact lookup_update_ne _ _ _ _ h
    · rfl
  · rfl

theorem lookup_evalRule_ne (am : AlertManager) (r : Rule) (m : ServerMetrics)
    (now : Time) (id' : String) (h : r.id ≠ id') :
    lookupAlert (evaluateRule am r m now).alerts id' = lookupAlert am.alerts id' := by
  unfold evaluateRule
  split
  · exact lookup_coua_ne am r.id id' r.type (r.severity m) r.title
      (r.descr am.config m) now (r.metadata am.config m) (Ne.symm h)
  · exact lookup_resolve_ne am r.id id' now (Ne.symm h)

theorem lookup_fold_ne (rs : List Rule) (m : ServerMetrics) (now : Time)
    (id' : String) :
    ∀ am : AlertManager, (∀ r ∈ rs, r.id ≠ id') →
      lookupAlert ((rs.foldl (fun acc r => evaluateRule acc r m now) am)).alerts id' =
        lookupAlert am.alerts id' := by
  induction rs with
  | nil => intro am h; rfl
  | cons r rest ih =>
    intro am h
    rw [List.foldl_cons, ih _ (fun r2 hr2 => h r2 (List.mem_cons_of_mem r hr2)),
      lookup_evalRule_ne am r m now id' (h r (List.mem_cons_self r rest))]

theorem allAt_coua_ne (am : AlertManager) (id id' : String) (ty : AlertType)
    (sev : Severity) (t d : String) (now : Time) (md : List (String × MetaVal))
    (v : Alert) (h : id' ≠ id) (hall : AllAt am.alerts id' v) :
    AllAt (createOrUpdateAlert am id ty sev t d now md).alerts id' v := by
  unfold createOrUpdateAlert
  split <;> exact allAt_update_ne _ _ _ _ _ (Ne.symm h) hall

theorem allAt_resolve_ne (am : AlertManager) (id id' : String) (now : Time)
    (v : Alert) (h : id' ≠ id) (hall : AllAt am.alerts id' v) :
    AllAt (resolveAlert am id now).alerts id' v := by
  unfold resolveAlert
  split
  · split
    · exact allAt_update_ne _ _ _ _ _ (Ne.symm h) hall
    · exact hall
  · exact hall

theorem allAt_evalRule_ne (am : AlertManager) (r : Rule) (m : ServerMetrics)
    (now : Time) (id' : String) (v : Alert) (h : r.id ≠ id')
    (hall : AllAt am.alerts id' v) :
    AllAt (evaluateRule am r m now).alerts id' v := by
  unfold evaluateRule
  split
  · exact allAt_coua_ne am r.id id' r.type (r.severity m) r.title
      (r.descr am.config m) now (r.metadata am.config m) v (Ne.symm h) hall
  · exact allAt_resolve_ne am r.id id' now v (Ne.symm h) hall

theorem allAt_fold_ne (rs : List Rule) (m : ServerMetrics) (now : Time)
    (id' : String) (v : Alert) :
    ∀ am : AlertManager, (∀ r ∈ rs, r.id ≠ id') → AllAt am.alerts id' v →
      AllAt ((rs.foldl (fun acc r => evaluateRule acc r m now) am)).alerts id' v := by
  induction rs with
  | nil => intro am _ hall; exact hall
  | cons r rest ih =>
    intro am h hall
    rw [List.foldl_cons]
    exact ih _ (fun r2 hr2 => h r2 (List.mem_cons_of_mem r hr2))
      (allAt_evalRule_ne am r m now id' v (h r (List.mem_cons_self r rest)) hall)

theorem coua_self_none (am : AlertManager) (id : String) (ty : AlertType)
    (sev : Severity) (t d : String) (now : Time) (md : List (String × MetaVal))
    (hl : lookupAlert am.alerts id = none) :
    lookupAlert (createOrUpdateAlert am id ty sev t d now md).alerts id =
        some (freshAlert id ty sev t d now md) ∧
      AllAt (createOrUpdateAlert am id ty sev t d now md).alerts id
        (freshAlert id ty sev t d now md) := by
  unfold createOrUpdateAlert
  rw [hl]
  exact ⟨lookup_update_self _ _ _, allAt_update_self _ _ _⟩

theorem coua_self_some (am : AlertManager) (id : String) (ty : AlertType)
    (sev : Severity) (t d : String) (now : Time) (md : List (String × MetaVal))
    (a : Alert) (hl : lookupAlert am.alerts id = some a) :
    lookupAlert (createOrUpdateAlert am id ty sev t d now md).alerts id =
        some (updAlert a now md) ∧
      AllAt (createOrUpdateAlert am id ty sev t d now md).alerts id
        (updAlert a now md) := by
  unfold createOrUpdateAlert
  rw [hl]
  exact ⟨lookup_update_self _ _ _, allAt_update_self _ _ _⟩

theorem resolve_self_active (am : AlertManager) (id : String) (now : Time)
    (a : Alert) (hl : lookupAlert am.alerts id = some a)
    (ha : a.status = .active) :
    lookupAlert (resolveAlert am id now).alerts id = some (resAlert a now) ∧
      AllAt (resolveAlert am id now).alerts id (resAlert a now) := by
  unfold resolveAlert
  rw [hl]
  dsimp only
  rw [if_pos ha]
  exact ⟨lookup_update_self _ _ _, allAt_update_self _ _ _⟩

theorem resolve_self_inactive (am : AlertManager) (id : String) (now : Time)
    (a : Alert) (hl : lookupAlert am.alerts id = some a)
    (ha : ¬ a.status = .active) :
    resolveAlert am id now = am := by
  unfold resolveAlert
  rw [hl]
  dsimp only
  rw [if_neg ha]

theorem delCond_fresh (id : String) (ty : AlertType) (sev : Severity)
    (t d : String) (now : Time) (md : List (String × MetaVal)) (now2 : Time) :
    delCond (freshAlert id ty sev t d now md) now2 = false := rfl

theorem delCond_upd (a : Alert) (now : Time) (md : List (String × MetaVal))
    (now2 : Time) :
    delCond (updAlert a now md) now2 = delCond a now2 := rfl

theorem delCond_res_now (a : Alert) (now : Time) :
    delCond (resAlert a now) now = false := by
  have h1 : decide (now - now > 24 * nsPerHour) = false := by
    have h2 : now - now = 0 := sub_self now
    rw [h2]
    decide
  unfold delCond resAlert
  dsimp only
  rw [h1]
  rfl

theorem delCond_suppressed {b : Alert} (now : Time) (hb : b.status = .suppressed) :
    delCond b now = false := by
  unfold delCond
  rw [hb]
  rfl

theorem ruleIds_nodup : (ruleList.map (fun r => r.id)).Nodup := by decide

theorem rule_split {r : Rule} (hr : r ∈ ruleList) :
    ∃ pre post, ruleList = pre ++ r :: post ∧
      (∀ r2 ∈ pre, r2.id ≠ r.id) ∧ (∀ r2 ∈ post, r2.id ≠ r.id) := by
  obtain ⟨pre, post, heq⟩ := List.append_of_mem hr
  refine ⟨pre, post, heq, ?_, ?_⟩
  all_goals
    have hnd := ruleIds_nodup
    rw [heq] at hnd
    simp only [List.map_append, List.map_cons] at hnd
    rw [List.nodup_append] at hnd
  · intro r2 hr2 hceq
    apply hnd.2.2 (List.mem_map_of_mem _ hr2)
    rw [hceq]
    exact List.mem_cons_self _ _
  · intro r2 hr2 hceq
    apply (List.nodup_cons.mp hnd.2.1).1
    rw [← hceq]
    exact List.mem_map_of_mem (fun r => r.id) hr2

theorem evalMetrics_eq (am : AlertManager) (m : ServerMetrics) (now : Time)
    (hen : am.config.enableAlerts = true) :
    EvaluateMetrics am m now =
      cleanupResolvedAlerts
        (ruleList.foldl (fun acc r => evaluateRule acc r m now)
          { am with lastEvalTime := now })
        now := by
  unfold EvaluateMetrics
  rw [hen]
  rfl

/-- C6 (amended): one `EvaluateMetrics` call, seen at any single rule
`r`, with alerts enabled.  When the rule condition holds: a missing id is
inserted as a fresh active alert with `count = 1`; a present id is
updated (count incremented, `updated_at := now`, metadata merged) and
kept, unless the stored alert was resolved more than 24 hours before
`now`, in which case the end-of-call cleanup deletes it.  When the
condition fails and the id holds an active alert, it transitions to
resolved with `resolved_at = now`. -/
theorem evaluateMetrics_per_rule (am : AlertManager) (m : ServerMetrics)
    (now : Time) (r : Rule) (hr : r ∈ ruleList)
    (hen : am.config.enableAlerts = true) :
    (r.cond am.config m = true → lookupAlert am.alerts r.id = none →
      lookupAlert (EvaluateMetrics am m now).alerts r.id =
        some (freshAlert r.id r.type (r.severity m) r.title
          (r.descr am.config m) now (r.metadata am.config m))) ∧
    (∀ a, r.cond am.config m = true → lookupAlert am.alerts r.id = some a →
      delCond a now = false →
      lookupAlert (EvaluateMetrics am m now).alerts r.id =
        some (updAlert a now (r.metadata am.config m))) ∧
    (∀ a, r.cond am.config m = true → lookupAlert am.alerts r.id = some a →
      delCond a now = true →
      lookupAlert (EvaluateMetrics am m now).alerts r.id = none) ∧
    (∀ a, r.cond am.config m = false → lookupAlert am.alerts r.id = some a →
      a.status = .active →
      lookupAlert (EvaluateMetrics am m now).alerts r.id =
        some (resAlert a now)) := by
  obtain ⟨pre, post, heq, hpre, hpost⟩ := rule_split hr
  have hfold : ∀ am0 : AlertManager,
      ruleList.foldl (fun acc r => evaluateRule acc r m now) am0 =
        post.foldl (fun acc r => evaluateRule acc r m now)
          (evaluateRule (pre.foldl (fun acc r => evaluateRule acc r m now) am0)
            r m now) := by
    intro am0
    rw [heq, List.foldl_append, List.foldl_cons]
  have hev := evalMetrics_eq am m now hen
  set amS : AlertManager := { am with lastEvalTime := now } with hamS
  set am1 : AlertManager :=
    pre.foldl (fun acc r => evaluateRule acc r m now) amS with ham1
  have hl1 : lookupAlert am1.alerts r.id = lookupAlert am.alerts r.id := by
    rw [ham1, lookup_fold_ne pre m now r.id amS hpre]
  have hc1 : am1.config = am.config := by
    rw [ham1, config_fold pre m now amS]
  -- the common tail: from the state after rule r to the final lookup
  have tail :
      ∀ v : Alert,
        lookupAlert (evaluateRule am1 r m now).alerts r.id = some v →
        AllAt (evaluateRule am1 r m now).alerts r.id v →
        lookupAlert (EvaluateMetrics am m now).alerts r.id =
          (if delCond v now then none else some v) := by
    intro v hv hall
    rw [hev, hfold amS, ← ham1]
    have hvF :
        lookupAlert ((post.foldl (fun acc r => evaluateRule acc r m now)
          (evaluateRule am1 r m now))).alerts r.id = some v := by
      rw [lookup_fold_ne post m now r.id _ hpost]
      exact hv
    have hallF :
        AllAt ((post.foldl (fun acc r => evaluateRule acc r m now)
          (evaluateRule am1 r m now))).alerts r.id v :=
      allAt_fold_ne post m now r.id v _ hpost hall
    by_cases hdel : delCond v now = true
    · rw [if_pos hdel]
      exact allAt_filter_out hallF (by rw [hdel]; rfl)
    · rw [if_neg hdel]
      exact lookup_filter_keep hvF
        (by rw [Bool.eq_false_iff.mpr hdel]; rfl)
  refine ⟨?_, ?_, ?_, ?_⟩
  · intro hcond hnone
    have hcond1 : r.cond am1.config m = true := by rw [hc1]; exact hcond
    have hnone1 : lookupAlert am1.alerts r.id = none := by
      rw [hl1]; exact hnone
    have hstep : evaluateRule am1 r m now =
        createOrUpdateAlert am1 r.id r.type (r.severity m) r.title
          (r.descr am1.config m) now (r.metadata am1.config m) := by
      unfold evaluateRule
      rw [if_pos hcond1]
    obtain ⟨hlk, hall⟩ := coua_self_none am1 r.id r.type (r.severity m) r.title
      (r.descr am1.config m) now (r.metadata am1.config m) hnone1
    have := tail _ (by rw [hstep]; exact hlk) (by rw [hstep]; exact hall)
    rw [delCond_fresh] at this
    rw [if_neg (by simp)] at this
    rw [hc1] at this
    exact this
  · intro a hcond hsome hdel
    have hcond1 : r.cond am1.config m = true := by rw [hc1]; exact hcond
    have hsome1 : lookupAlert am1.alerts r.id = some a := by
      rw [hl1]; exact hsome
    have hstep : evaluateRule am1 r m now =
        createOrUpdateAlert am1 r.id r.type (r.severity m) r.title
          (r.descr am1.config m) now (r.metadata am1.config m) := by
      unfold evaluateRule
      rw [if_pos hcond1]
    obtain ⟨hlk, hall⟩ := coua_self_some am1 r.id r.type (r.severity m) r.title
      (r.descr am1.config m) now (r.metadata am1.config m) a hsome1
    have := tail _ (by rw [hstep]; exact hlk) (by rw [hstep]; exact hall)
    rw [delCond_upd, hdel] at this
    rw [if_neg (by simp)] at this
    rw [hc1] at this
    exact this
  · intro a hcond hsome hdel
    have hcond1 : r.cond am1.config m = true := by rw [hc1]; exact hcond
    have hsome1 : lookupAlert am1.alerts r.id = some a := by
      rw [hl1]; exact hsome
    have hstep : evaluateRule am1 r m now =
        createOrUpdateAlert am1 r.id r.type (r.severity m) r.title
          (r.descr am1.config m) now (r.metadata am1.config m) := by
      unfold evaluateRule
      rw [if_pos hcond1]
    obtain ⟨hlk, hall⟩ := coua_self_some am1 r.id r.type (r.severity m) r.title
      (r.descr am1.config m) now (r.metadata am1.config m) a hsome1
    have := tail _ (by rw [hstep]; exact hlk) (by rw [hstep]; exact hall)
    rw [delCond_upd, hdel] at this
    rw [if_pos rfl] at this
    exact this
  · intro a hcond hsome hact
    have hcond1 : r.cond am1.config m = false := by rw [hc1]; exact hcond
    have hsome1 : lookupAlert am1.alerts r.id = some a := by
      rw [hl1]; exact hsome
    have hstep : evaluateRule am1 r m now = resolveAlert am1 r.id now := by
      unfold evaluateRule
      rw [hcond1]
      rfl
    obtain ⟨hlk, hall⟩ := resolve_self_active am1 r.id now a hsome1 hact
    have := tail _ (by rw [hstep]; exact hlk) (by rw [hstep]; exact hall)
    rw [delCond_res_now] at this
    rw [if_neg (by simp)] at this
    exact this

/-- A resolved CPU alert whose `resolved_at` lies far in the past. -/
def cexAlert : Alert :=
  { ID := "system_cpu_high", type := .system, severity := .high,
    title := "High CPU Usage", description := "old", createdAt := 0,
    updatedAt := 0, resolvedAt := some 0, status := .resolved,
    metadata := [], count := 3 }

def cexManager : AlertManager :=
  { alerts := [("system_cpu_high", cexAlert)], config := defaultConfig,
    lastEvalTime := 0 }

/-- Metrics with CPU at 90 percent (above the default threshold 80) and
everything else quiet. -/
def cexMetrics : ServerMetrics :=
  { systemStats := ⟨90, 0, 0⟩, networkStats := ⟨0⟩,
    securityStats := ⟨true, 0⟩, connectionStats := ⟨0⟩,
    performance := ⟨0, 0⟩ }

/-- C6 counterexample: the CPU rule condition holds and an alert with its
id exists (resolved 25 hours ago), yet after `EvaluateMetrics` the id is
gone entirely — `createOrUpdateAlert` increments the count but leaves the
status resolved, and `cleanupResolvedAlerts` then deletes the alert in
the same call, so no alert with the incremented count survives, contrary
to the claim. -/
theorem evaluate_stale_update_cex :
    ruleCPU.cond cexManager.config cexMetrics = true ∧
    lookupAlert cexManager.alerts "system_cpu_high" = some cexAlert ∧
    cexManager.config.enableAlerts = true ∧
    lookupAlert (EvaluateMetrics cexManager cexMetrics (25 * nsPerHour)).alerts
      "system_cpu_high" = none := by
  refine ⟨by decide, by decide, by decide, by decide⟩

/-- Witness for C6 (amended): the fresh-insert case at a concrete empty
manager and high-CPU metrics. -/
theorem evaluateMetrics_per_rule_witness :
    lookupAlert (EvaluateMetrics (NewAlertManager 0) cexMetrics 1000).alerts
        ruleCPU.id =
      some (freshAlert ruleCPU.id ruleCPU.type (ruleCPU.severity cexMetrics)
        ruleCPU.title (ruleCPU.descr (NewAlertManager 0).config cexMetrics) 1000
        (ruleCPU.metadata (NewAlertManager 0).config cexMetrics)) :=
  (evaluateMetrics_per_rule (NewAlertManager 0) cexMetrics 1000 ruleCPU
    (by unfold ruleList; exact List.mem_cons_self _ _) rfl).1 (by decide) rfl

theorem suppressed_step (r : Rule) (m : ServerMetrics) (now2 : Time)
    (id : String) (am : AlertManager)
    (h : ∃ b, lookupAlert am.alerts id = some b ∧ b.status = .suppressed) :
    ∃ b, lookupAlert (evaluateRule am r m now2).alerts id = some b ∧
      b.status = .suppressed := by
  obtain ⟨b, hb, hbs⟩ := h
  by_cases hid : r.id = id
  · subst hid
    unfold evaluateRule
    split
    · obtain ⟨hlk, _⟩ := coua_self_some am r.id r.type (r.severity m) r.title
        (r.descr am.config m) now2 (r.metadata am.config m) b hb
      exact ⟨updAlert b now2 (r.metadata am.config m), hlk, hbs⟩
    · rw [resolve_self_inactive am r.id now2 b hb (by rw [hbs]; simp)]
      exact ⟨b, hb, hbs⟩
  · rw [lookup_evalRule_ne am r m now2 id hid]
    exact ⟨b, hb, hbs⟩

theorem suppressed_stays_fold (rs : List Rule) (m : ServerMetrics)
    (now2 : Time) (id : String) :
    ∀ am : AlertManager,
      (∃ b, lookupAlert am.alerts id = some b ∧ b.status = .suppressed) →
      ∃ b, lookupAlert ((rs.foldl (fun acc r => evaluateRule acc r m now2)
          am)).alerts id = some b ∧ b.status = .suppressed := by
  induction rs with
  | nil => intro am h; exact h
  | cons r rest ih =>
    intro am h
    rw [List.foldl_cons]
    exact ih _ (suppressed_step r m now2 id am h)

/-- A suppressed alert stays suppressed across any `EvaluateMetrics`
call: the rules either update it in place (status untouched) or skip it
(`resolveAlert` only acts on active alerts), and cleanup only removes
resolved alerts. -/
theorem suppressed_stays (am : AlertManager) (m : ServerMetrics) (now2 : Time)
    (id : String)
    (h : ∃ b, lookupAlert am.alerts id = some b ∧ b.status = .suppressed) :
    ∃ b, lookupAlert (EvaluateMetrics am m now2).alerts id = some b ∧
      b.status = .suppressed := by
  unfold EvaluateMetrics
  split
  · exact h
  · obtain ⟨b, hb, hbs⟩ :=
      suppressed_stays_fold ruleList m now2 id { am with lastEvalTime := now2 } h
    refine ⟨b, ?_, hbs⟩
    exact lookup_filter_keep hb (by rw [delCond_suppressed now2 hbs]; rfl)

theorem wf_update {m : List (String × Alert)} {id : String} {v : Alert}
    (hwf : ∀ kv ∈ m, kv.2.ID = kv.1) (hv : v.ID = id) :
    ∀ kv ∈ aupdate m id v, kv.2.ID = kv.1 := by
  unfold aupdate
  split
  · intro kv hkv
    obtain ⟨kv0, hkv0, hmap⟩ := List.mem_map.mp hkv
    by_cases hk0 : (kv0.1 == id) = true
    · rw [if_pos hk0] at hmap
      rw [← hmap]
      exact hv
    · rw [if_neg hk0] at hmap
      subst hmap
      exact hwf kv0 hkv0
  · intro kv hkv
    rcases List.mem_append.mp hkv with hmm | hs
    · exact hwf kv hmm
    · simp only [List.mem_singleton] at hs
      rw [hs]
      exact hv

/-- C7 (amended): a successful `SuppressAlert(id, d)` at time `now` on an
alert `a` stores the suppressed alert with
`suppressed_until = now + d` in its metadata; the alert is excluded from
`GetActiveAlerts` and still returned by `GetAllAlerts since` for any
`since` before its creation; but the suppression never expires: after any
subsequent `EvaluateMetrics` — at any time, in particular past
`suppressed_until` — the alert is still suppressed and never returns to
its prior status (the code writes `suppressed_until` but never reads it). -/
theorem suppressAlert_behavior (am am2 : AlertManager) (id : String)
    (d : Duration) (now : Time) (a : Alert)
    (hwf : ∀ kv ∈ am.alerts, kv.2.ID = kv.1)
    (hl : lookupAlert am.alerts id = some a)
    (hs : SuppressAlert am id d now = .ok am2) :
    lookupAlert am2.alerts id = some (suppAlert a d now) ∧
    (∀ b ∈ GetActiveAlerts am2, b.ID ≠ id) ∧
    (∀ since, since < a.createdAt → suppAlert a d now ∈ GetAllAlerts am2 since) ∧
    (∀ m now2, ∃ b,
      lookupAlert (EvaluateMetrics am2 m now2).alerts id = some b ∧
        b.status = .suppressed) := by
  unfold SuppressAlert at hs
  rw [hl] at hs
  injection hs with hs
  subst hs
  have hlook : lookupAlert (aupdate am.alerts id (suppAlert a d now)) id =
      some (suppAlert a d now) := lookup_update_self _ _ _
  have hall : AllAt (aupdate am.alerts id (suppAlert a d now)) id
      (suppAlert a d now) := allAt_update_self _ _ _
  have haID : a.ID = id := hwf (id, a) (lookup_mem hl)
  have hwf2 : ∀ kv ∈ aupdate am.alerts id (suppAlert a d now), kv.2.ID = kv.1 :=
    wf_update hwf haID
  refine ⟨hlook, ?_, ?_, ?_⟩
  · intro b hb hbid
    obtain ⟨kv, hkv, hkv2⟩ := List.mem_map.mp hb
    have hmem := List.mem_filter.mp hkv
    by_cases hk : kv.1 = id
    · have hv2 : kv.2 = suppAlert a d now := hall kv hmem.1 hk
      rw [hv2] at hmem
      have hfalse : ((suppAlert a d now).status == AlertStatus.active) = false := rfl
      rw [hfalse] at hmem
      exact absurd hmem.2 (by simp)
    · have hkid : kv.2.ID = kv.1 := hwf2 kv hmem.1
      apply hk
      rw [← hkid, hkv2, hbid]
  · intro since hsince
    unfold GetAllAlerts
    have hmm : (id, suppAlert a d now) ∈
        (aupdate am.alerts id (suppAlert a d now)).filter
          (fun kv => decide (since < kv.2.createdAt)) :=
      List.mem_filter.mpr ⟨lookup_mem hlook, decide_eq_true hsince⟩
    exact List.mem_map_of_mem Prod.snd hmm
  · intro m now2
    exact suppressed_stays _ m now2 id ⟨suppAlert a d now, hlook, rfl⟩

/-- An active CPU alert created at time 0. -/
def supAlert0 : Alert :=
  { ID := "system_cpu_high", type := .system, severity := .high,
    title := "High CPU Usage", description := "d", createdAt := 0,
    updatedAt := 0, resolvedAt := none, status := .active,
    metadata := [], count := 1 }

def supManager : AlertManager :=
  { alerts := [("system_cpu_high", supAlert0)], config := defaultConfig,
    lastEvalTime := 0 }

/-- `supManager` right after `SuppressAlert("system_cpu_high", 60s)` at
time 0: the alert is suppressed with `suppressed_until = 60s`. -/
def supManager2 : AlertManager :=
  { alerts := [("system_cpu_high",
      { supAlert0 with
        status := .suppressed
        updatedAt := 0
        metadata := [("suppressed_until", .time 60000000000)] })],
    config := defaultConfig, lastEvalTime := 0 }

/-- C7 counterexample: an active alert is suppressed for 60 seconds at
time 0; `EvaluateMetrics` then runs 10 hours later — long after
`suppressed_until` — with the CPU condition still firing, and the alert
is still suppressed, not back to its prior (active) status: no code path
ever reads `suppressed_until`. -/
theorem suppress_no_expiry_cex :
    supAlert0.status = AlertStatus.active ∧
    SuppressAlert supManager "system_cpu_high" 60000000000 0 = .ok supManager2 ∧
    ((0 : Int) + 60000000000 < 10 * nsPerHour) ∧
    (lookupAlert (EvaluateMetrics supManager2 cexMetrics (10 * nsPerHour)).alerts
        "system_cpu_high").map Alert.status = some AlertStatus.suppressed := by
  refine ⟨rfl, rfl, by decide, by decide⟩

/-- Witness for C7 (amended): the suppressed alert stored by a concrete
successful `SuppressAlert` call. -/
theorem suppressAlert_behavior_witness :
    lookupAlert supManager2.alerts "system_cpu_high" =
      some (suppAlert supAlert0 60000000000 0) :=
  (suppressAlert_behavior supManager supManager2 "system_cpu_high"
    60000000000 0 supAlert0 (by decide) rfl rfl).1

end Alerts

/-!
`Api` models the create-client handler of `internal/api` (`CreateClient`):
request binding, key generation, IP allocation, database insert and the
best-effort WireGuard `AddPeer`, with the failure of each external
collaborator (JSON binding, key generation, database insert, `AddPeer`)
injected as a parameter.  The pool is the `Pool` model above; the
database is the list of persisted client rows.  `AddPeer`'s effect on the
on-disk config is modelled in `WG`; here only its success or failure
matters, since the handler ignores its result.
-/

namespace Api

structure CreateClientRequest where
  name : String
deriving DecidableEq

structure KeyPair where
  publicKey : String
  privateKey : String
deriving DecidableEq

/-- The fields of `database.Client` the handler sets (the store adds id
and timestamps on insert). -/
structure Client where
  name : String
  publicKey : String
  privateKey : String
  ipAddress : Nat
  enabled : Bool
deriving DecidableEq

/-- The handler's HTTP outcome. -/
inductive Response where
  | badRequest (msg : String)
  | serverError (msg : String)
  | created (c : Client)
deriving DecidableEq

/-- `CreateClient`: the handler body, in source order.  `req = none`
models a `ShouldBindJSON` failure; `dbFails` and `wgFails` model the
database insert and `AddPeer` failing.  Returns the HTTP outcome, the
pool state and the database rows after the call. -/
def CreateClient (req : Option CreateClientRequest)
    (keyGen : Except String KeyPair) (dbFails wgFails : Bool)
    (pool : Pool.IPPool) (db : List Client) :
    Response × Pool.IPPool × List Client :=
  match req with
  | none => (.badRequest "invalid request", pool, db)
  | some r =>
    match keyGen with
    | .error _ => (.serverError "Failed to generate client keys", pool, db)
    | .ok kp =>
      match Pool.AllocateIP pool with
      | .error _ => (.serverError "Failed to allocate IP address", pool, db)
      | .ok (ip, pool1) =>
        let client : Client :=
          { name := r.name, publicKey := kp.publicKey,
            privateKey := kp.privateKey, ipAddress := ip, enabled := true }
        if dbFails then
          -- "Release the allocated IP if database creation fails"
          -- (the handler discards ReleaseIP's own result)
          let pool2 :=
            match Pool.ReleaseIP pool1 ip with
            | .ok p2 => p2
            | .error _ => pool1
          (.serverError "Failed to create client", pool2, db)
        else
          -- AddPeer is best-effort: "We continue even if adding peer
          -- fails"; wgFails therefore changes nothing below.
          (.created client, pool1, db ++ [client])

/-- C8: in the create-client handler, on a pool in any reachable state:
if the database insert fails after an address `ip` was allocated, the
handler's `ReleaseIP` call succeeds and returns the pool to exactly its
pre-allocation state before the 500 response; if instead `AddPeer` fails
after the row was persisted, the handler keeps the row and the
allocation and still returns 201 with the created peer. -/
theorem createClient_rollback (ip0 ones : Nat) (p0 pool pool1 : Pool.IPPool)
    (r : CreateClientRequest) (kp : KeyPair) (db : List Client) (ip : Nat)
    (hnew : Pool.NewIPPool ip0 ones = .ok p0) (hre : Pool.Reachable p0 pool)
    (halloc : Pool.AllocateIP pool = .ok (ip, pool1)) :
    Pool.ReleaseIP pool1 ip = .ok pool ∧
    (∀ wgFails,
      CreateClient (some r) (.ok kp) true wgFails pool db =
        (.serverError "Failed to create client", pool, db)) ∧
    CreateClient (some r) (.ok kp) false true pool db =
      (.created
        { name := r.name, publicKey := kp.publicKey,
          privateKey := kp.privateKey, ipAddress := ip, enabled := true },
        pool1,
        db ++ [{ name := r.name, publicKey := kp.publicKey,
                 privateKey := kp.privateKey, ipAddress := ip,
                 enabled := true }]) := by
  have hinv : Pool.Inv pool := Pool.reachable_inv (Pool.newIPPool_inv hnew) hre
  obtain ⟨h1, h2, h3, h4⟩ := Pool.allocateIP_range halloc
  have hsrv := hinv.server_eq
  have hrel : Pool.ReleaseIP pool1 ip = .ok pool := by
    subst h4
    unfold Pool.ReleaseIP
    rw [if_neg, if_neg, if_neg]
    · rw [Finset.erase_insert h3]
    · show ¬ ip = pool.serverIP
      omega
    · show ¬ ip ∉ insert ip pool.allocated
      simp
    · show ¬ ¬ Pool.Contains pool ip = true
      unfold Pool.Contains
      simp only [decide_eq_true_eq, not_not]
      omega
  refine ⟨hrel, ?_, ?_⟩
  · intro wgFails
    unfold CreateClient
    rw [halloc]
    dsimp only
    rw [if_pos rfl, hrel]
  · unfold CreateClient
    rw [halloc]
    rfl

/-- Witness for C8 at the freshly constructed `10.0.0.0/29` pool. -/
theorem createClient_rollback_witness :
    CreateClient (some ⟨"laptop"⟩) (.ok ⟨"PK", "SK"⟩) true false Pool.pool29 [] =
      (.serverError "Failed to create client", Pool.pool29, []) :=
  (createClient_rollback 167772160 29 Pool.pool29 Pool.pool29 Pool.pool29a1
    ⟨"laptop"⟩ ⟨"PK", "SK"⟩ [] 167772162 rfl Relation.ReflTransGen.refl rfl).2.1
    false

end Api

/-!
`Auth` models the JWT manager of the auth package (`GenerateToken`,
`ValidateToken`, `Claims.Valid`).  Time is nanoseconds (`Int`), passed
explicitly where the Go code calls `time.Now()`.  The HMAC-SHA256
signature is idealised: a token records which secret signed it and with
which method, and verification succeeds exactly when the verifier's
secret matches — the standard ideal-MAC abstraction of
`token.SignedString` / `jwt.ParseWithClaims`'s key check.
-/

namespace Auth

/-- Mirrors `AuthManager` (`jwtSecret`, `tokenExpiry`). -/
structure AuthManager where
  jwtSecret : String
  tokenExpiry : Int
deriving DecidableEq

/-- Mirrors the `Claims` struct: the custom fields plus the registered
claims set by `GenerateToken`. -/
structure Claims where
  userID : Nat
  username : String
  expiresAt : Option Int
  issuedAt : Option Int
  notBefore : Option Int
  issuer : String
  subject : String
deriving DecidableEq

inductive SigMethod where
  | hs256
  | other
deriving DecidableEq

/-- A signed token under the ideal-MAC abstraction. -/
structure Token where
  claims : Claims
  method : SigMethod
  secretUsed : String
deriving DecidableEq

/-- `NewAuthManagerWithConfig`. -/
def NewAuthManagerWithConfig (secret : String) (expiry : Int) : AuthManager :=
  { jwtSecret := secret, tokenExpiry := expiry }

/-- The default 24-hour expiry of `NewAuthManager`, in nanoseconds. -/
def day : Int := 24 * 3600 * 1000000000

/-- `NewAuthManager`. -/
def NewAuthManager (secret : String) : AuthManager :=
  NewAuthManagerWithConfig secret day

/-- `GenerateToken` at time `now`: claims with
`exp = now + tokenExpiry`, `iat = nbf = now`, issuer `vpn-server`,
subject `user-<id>`, signed HS256 with the manager's secret. -/
def GenerateToken (am : AuthManager) (now : Int) (userID : Nat)
    (username : String) : Token :=
  { claims :=
      { userID := userID, username := username,
        expiresAt := some (now + am.tokenExpiry), issuedAt := some now,
        notBefore := some now, issuer := "vpn-server",
        subject := "user-" ++ toString userID },
    method := .hs256, secretUsed := am.jwtSecret }

/-- `Claims.Valid` at time `now`: rejects a token whose `ExpiresAt` lies
strictly before `now` (`c.ExpiresAt.Before(time.Now())`). -/
def claimsValid (c : Claims) (now : Int) : Except String Claims :=
  match c.expiresAt with
  | some e => if e < now then .error "token has expired" else .ok c
  | none => .ok c

/-- `ValidateToken` at time `now`: checks the signing method is HMAC,
verifies the signature (ideal MAC: secret match), then validates the
claims; parse errors are wrapped like the `fmt.Errorf` in the source. -/
def ValidateToken (am : AuthManager) (now : Int) (tok : Token) :
    Except String Claims :=
  if tok.method ≠ .hs256 then
    .error "failed to parse token: unexpected signing method"
  else if tok.secretUsed ≠ am.jwtSecret then
    .error "failed to parse token: signature is invalid"
  else
    match claimsValid tok.claims now with
    | .error e => .error ("failed to parse token: " ++ e)
    | .ok c => .ok c

/-- C9: validating a freshly generated token (at the generation time,
with a non-negative lifetime `d`) succeeds and returns the original
`user_id` and `username`; validating the same token at any time more
than `d` after issuance fails with the expiration error. -/
theorem token_roundtrip (secret : String) (d : Int) (uid : Nat)
    (uname : String) (t : Int) (hd : 0 ≤ d) :
    (∃ c, ValidateToken (NewAuthManagerWithConfig secret d) t
        (GenerateToken (NewAuthManagerWithConfig secret d) t uid uname) = .ok c ∧
      c.userID = uid ∧ c.username = uname) ∧
    (∀ t2, t + d < t2 →
      ValidateToken (NewAuthManagerWithConfig secret d) t2
        (GenerateToken (NewAuthManagerWithConfig secret d) t uid uname) =
        .error "failed to parse token: token has expired") := by
  constructor
  · refine ⟨(GenerateToken (NewAuthManagerWithConfig secret d) t uid uname).claims,
      ?_, rfl, rfl⟩
    unfold ValidateToken GenerateToken claimsValid NewAuthManagerWithConfig
    rw [if_neg (by simp), if_neg (by simp)]
    dsimp only
    rw [if_neg (by omega)]
  · intro t2 ht2
    unfold ValidateToken GenerateToken claimsValid NewAuthManagerWithConfig
    rw [if_neg (by simp), if_neg (by simp)]
    dsimp only
    rw [if_pos (by omega)]
    rfl

/-- Witness for C9: a concrete secret, user and 24-hour lifetime,
validated one nanosecond past expiry. -/
theorem token_roundtrip_witness :
    ValidateToken (NewAuthManagerWithConfig "s3cret" 86400000000000)
        86400000000001
        (GenerateToken (NewAuthManagerWithConfig "s3cret" 86400000000000) 0 7
          "alice") =
      .error "failed to parse token: token has expired" :=
  (token_roundtrip "s3cret" 86400000000000 7 "alice" 0 (by decide)).2
    86400000000001 (by decide)

end Auth
